import Mathlib

/-
Verification development for the QtPackageTool repository.

The subject is `src/compiler.py`: the `QtCompiler` class, a small state
machine that drives `qmake`, `mingw32-make` and `windeployqt` in sequence,
optionally copies external sources into the build output, deploys QML
dependencies, and cleans intermediate build artifacts.

Shallow embedding conventions:
- Python strings are modelled as `List Char` (`Str`), with structural
  re-implementations of the string operations the source uses
  (`str.strip`, `str.lower`, `str.casefold`, `str.startswith`,
  `str.split("=")`, `str.lstrip`), so everything kernel-evaluates.
- `pathlib.Path` / `os.path` joins whose second argument can never be
  rooted (fixed file names, "release"/"debug", separator-stripped DLL
  paths) are modelled by `joinPath` (insertion of a single separator); the
  copy-destination `os.path.join`, whose second argument can still be
  backslash-rooted after `lstrip("/")`, is modelled by `ntJoin`, which
  mirrors `ntpath.join`'s behavior of discarding the first argument for a
  rooted second argument; `Path.resolve()` is modelled as the identity on
  the already-joined path (the claims never depend on symlink/`..`
  resolution).
- The filesystem and the outcomes of I/O calls (`Path.exists`,
  `os.path.isfile`, `os.path.isdir`, `shutil.copy2`/`copytree` raising,
  `glob.glob`, `os.remove` raising, reading the project file) are an
  explicit read-only environment `Env`.
- Qt signals (`output_signal`, `finished_signal`, `error_signal`) are
  modelled as an emitted list of `Event`s; `QProcess.start` as an optional
  `ProcStart` record (program, argument list).
- `QProcess.exitCode()` is a `Nat` (it is a Windows process exit code);
  `exitStatus() == NormalExit` is a `Bool`.
- The directory-creation side effects (`os.makedirs`) mutate only the
  filesystem and no claim is about them; they are not modelled.
-/

namespace QtPackageTool

/-- Python strings, modelled as lists of characters. -/
abbrev Str := List Char

/-- ASCII lower-casing of one character; models what `str.lower` and
`str.casefold` do on the ASCII keywords the source compares against. -/
def lowerC (c : Char) : Char :=
  if 'A' ≤ c ∧ c ≤ 'Z' then Char.ofNat (c.toNat + 32) else c

/-- `str.lower()` / `str.casefold()` on the modelled strings. -/
def lowerS (s : Str) : Str := s.map lowerC

/-- Whitespace as stripped by Python `str.strip()` (the characters that
occur in the inputs of this program). -/
def isWS (c : Char) : Bool := c = ' ' ∨ c = '\t' ∨ c = '\n' ∨ c = '\r'

/-- Python `str.strip()`: remove leading and trailing whitespace. -/
def trimC (s : Str) : Str :=
  ((s.dropWhile isWS).reverse.dropWhile isWS).reverse

/-- Python `str.startswith(p)`. -/
def startsWithC : Str → Str → Bool
  | _, [] => true
  | [], _ :: _ => false
  | a :: as, b :: bs => a = b && startsWithC as bs

/-- Python `str.split(c)` for a one-character separator: always returns at
least one piece; `n` separators give `n+1` pieces. -/
def splitC (c : Char) : Str → List Str
  | [] => [[]]
  | x :: xs =>
    let r := splitC c xs
    if x = c then [] :: r
    else
      match r with
      | [] => [[x]]
      | h :: t => (x :: h) :: t

/-- Is the character a forward slash. -/
def isSlash (c : Char) : Bool := c = '/'

/-- Is the character one of the two path separators. -/
def isSep (c : Char) : Bool := c = '/' ∨ c = '\\'

/-- Python `s.lstrip("/")` as used at the copy-destination computation:
removes leading forward slashes only. -/
def lstripSlash (s : Str) : Str := s.dropWhile isSlash

/-- Python `s.lstrip("/\\")` as used at the QML-DLL path computation:
removes leading forward and backward slashes. -/
def lstripSeps (s : Str) : Str := s.dropWhile isSep

/-- Path joining (`pathlib.Path / part`, `os.path.join` for the relative
second arguments this program passes): one separator in between. -/
def joinPath (a b : Str) : Str := a ++ '/' :: b

/-- `pathlib.Path(s).parent`: drop the last path component. -/
def parentDir (s : Str) : Str :=
  ((s.reverse.dropWhile (fun c => !(isSep c))).drop 1).reverse

/-- `os.path.basename`: the part after the last path separator. -/
def basenameC (s : Str) : Str :=
  (s.reverse.takeWhile (fun c => !(isSep c))).reverse

/-- The root part of `os.path.splitext`: drop the extension after the last
dot; a name whose only dot content is a leading dot keeps it all. -/
def splitextRoot (s : Str) : Str :=
  let root := ((s.reverse.dropWhile (fun c => c != '.')).drop 1).reverse
  if root = [] then s else root

/-- Decimal rendering of a number, as Python string interpolation does. -/
def natToChars (n : Nat) : Str := Nat.toDigits 10 n

/-- One entry of the external-source manifest: the `Source`, `Destination`
and `Type` fields of the dictionaries handed to `compile_qt_project`. -/
structure Entry where
  source : Str
  destination : Str
  type : Str
deriving DecidableEq, Repr

/-- The mutable per-run fields of the `QtCompiler` object: the four stage
flags and the configuration captured by `compile_qt_project`. -/
structure CompilerState where
  make_started : Bool
  deploy_started : Bool
  copy_sources_started : Bool
  qml_dll_deploy_count : Nat
  output_path : Str
  qt_bin : Str
  mingw_bin : Str
  project_file : Str
  external_sources : List Entry
  qml_dll_need_deploy_files : List Str
  is_release : Bool
  need_clean : Bool
deriving DecidableEq, Repr

/-- The read-only world the compiler consults: path existence and kinds,
whether a copy or a removal raises (and with what message), the files a
non-recursive `glob.glob(os.path.join(dir, pattern))` yields, and the lines
of a text file (used on the project file). -/
structure Env where
  pathExists : Str → Bool
  isFile : Str → Bool
  isDir : Str → Bool
  copyFails : Str → Str → Option Str
  globFiles : Str → Str → List Str
  removeFails : Str → Option Str
  proLines : Str → List Str

/-- The observable events of a run: `output_signal`, `finished_signal` and
`error_signal` emissions, in order. -/
inductive Event where
  | output (msg : Str)
  | finished (dir : Str)
  | error (msg : Str)
deriving DecidableEq, Repr

/-- A `QProcess.start(program, args)` invocation. -/
structure ProcStart where
  program : Str
  args : List Str
deriving DecidableEq, Repr

/-- One step of the loop in `get_exe_name_from_pro`: a line whose stripped,
lowered text starts with "target" and which contains a "=" overwrites the
accumulated name with the text between the first and second "=". -/
def targetScanStep (exe_name : Str) (line : Str) : Str :=
  if startsWithC (lowerS (trimC line)) "target".data then
    match splitC '=' line with
    | _ :: p1 :: _ => trimC p1
    | _ => exe_name
  else exe_name

/-- The name accumulated by the line scan of `get_exe_name_from_pro`,
before the ".exe" suffix: default is the project file base name without
extension, each matching line overwrites it. -/
def exeStem (env : Env) (project_file : Str) : Str :=
  (env.proLines project_file).foldl targetScanStep
    (splitextRoot (basenameC project_file))

/-- `QtCompiler.get_exe_name_from_pro`: scan the project file for target
lines and append the ".exe" suffix. -/
def get_exe_name_from_pro (env : Env) (project_file : Str) : Str :=
  exeStem env project_file ++ ".exe".data

/-- The HTML-styled success line emitted on the output channel at the end
of a successful run. -/
def packagingMsg : Str :=
  "<span style=\"color:green; font-weight:bold;\">Packaging finished!</span>".data

/-- The HTML-styled cancellation line emitted on the error channel by
`stop_process`. -/
def stopMsg : Str :=
  "<span style=\"color:red; font-weight:bold;\">Build stopped by user</span>".data

/-- The "release"/"debug" configuration sub-directory name chosen from the
release flag (`config_type` / `config_dir` in the source). -/
def configDirOf (is_release : Bool) : Str :=
  if is_release then "release".data else "debug".data

/-- Result of `compile_qt_project`: emitted events, the process start (if
any), the captured run state, the working directory set on the process and
the PATH value of the process environment. -/
structure StartOut where
  events : List Event
  started : Option ProcStart
  state : CompilerState
  workingDir : Str
  procPATH : Str
deriving Repr

/-- `QtCompiler.compile_qt_project`: capture the configuration, reset the
four stage flags, build the QML-deployment list from the manifest, extend
the inherited PATH with the two bin directories
(`env["PATH"] += ";" + qt_bin + ";" + mingw_bin`), then check `qmake.exe`
and either fail with an error or start it with
`[project_file, "CONFIG+=release"|"CONFIG+=debug"]` in the output
directory. -/
def compile_qt_project (env : Env) (basePATH : Str)
    (project_file qt_bin mingw_bin output_path : Str)
    (external_sources : List Entry) (is_release need_clean : Bool) :
    StartOut :=
  let procPATH := basePATH ++ ";".data ++ qt_bin ++ ";".data ++ mingw_bin
  let st : CompilerState :=
    { make_started := false
      deploy_started := false
      copy_sources_started := false
      qml_dll_deploy_count := 0
      output_path := output_path
      qt_bin := qt_bin
      mingw_bin := mingw_bin
      project_file := project_file
      external_sources := external_sources
      qml_dll_need_deploy_files :=
        (external_sources.filter
          (fun e => lowerS (trimC e.type) = "qml".data)).map Entry.destination
      is_release := is_release
      need_clean := need_clean }
  let config_type := configDirOf is_release
  let qmake_exe := joinPath qt_bin "qmake.exe".data
  if env.pathExists qmake_exe then
    { events := [Event.output "Running qmake...\n".data]
      started := some
        { program := qmake_exe
          args := [project_file, "CONFIG+=".data ++ config_type] }
      state := st
      workingDir := output_path
      procPATH := procPATH }
  else
    { events := [Event.error ("qmake not found: ".data ++ qmake_exe)]
      started := none
      state := st
      workingDir := output_path
      procPATH := procPATH }

/-- Does the path begin with a path separator (making it rooted). -/
def startsWithSep : Str → Bool
  | [] => false
  | c :: _ => isSep c

/-- Does the path end with a separator or a drive colon. -/
def endsWithSepOrColon (s : Str) : Bool :=
  match s.getLast? with
  | some c => isSep c || c = ':'
  | none => false

/-- `os.path.join(a, b)` with Windows (`ntpath`) semantics for the
drive-letter-free paths this program passes: a second argument that begins
with a path separator is rooted and replaces the accumulated path
entirely — the first argument is discarded; otherwise the second argument
is appended, with one separator inserted unless the first part is empty or
already ends in a separator or colon. (`ntpath` writes a backslash as the
inserted separator; the model normalizes the inserted separator to `/`
like every other join here — nothing in the program depends on which of
the two separator characters is inserted, while everything about the
rooted case does. Drive-qualified and UNC paths do not occur in this
program and are not modelled.) -/
def ntJoin (a b : Str) : Str :=
  if startsWithSep b then b
  else if a = [] then b
  else if endsWithSepOrColon a then a ++ b
  else a ++ '/' :: b

/-- The destination computed for a manifest entry inside
`copy_sources_to_output`: `os.path.join(output_dir, dest_rel.lstrip("/"))`.
Leading forward slashes are stripped, a leading backslash is not — and a
still-backslash-rooted second argument then makes `os.path.join` discard
`output_dir` entirely. -/
def destFor (output_dir dest_rel : Str) : Str :=
  ntJoin output_dir (lstripSlash dest_rel)

/-- The loop of `QtCompiler.copy_sources_to_output` over the manifest.
Returns the emitted events and whether the loop ran to completion (`false`
when a copy raised, in which case the source returns early and does not
re-invoke `process_finished`). An entry with an empty source or destination
is skipped with a warning on the output channel; an entry whose source is
neither a file nor a directory falls through both branches and is skipped
silently. -/
def copyEntries (env : Env) (output_dir : Str) :
    List Entry → List Event × Bool
  | [] => ([], true)
  | entry :: rest =>
    if entry.source = [] ∨ entry.destination = [] then
      let r := copyEntries env output_dir rest
      (Event.output ("Invalid entry, skipping: ".data ++ entry.source
        ++ " ".data ++ entry.destination) :: r.1, r.2)
    else
      let dest := destFor output_dir entry.destination
      if env.isFile entry.source then
        match env.copyFails entry.source dest with
        | some e =>
          ([Event.error ("Failed to copy ".data ++ entry.source
            ++ " -> ".data ++ dest ++ ": ".data ++ e)], false)
        | none =>
          let r := copyEntries env output_dir rest
          (Event.output ("Copied ".data ++ entry.source
            ++ " -> ".data ++ dest) :: r.1, r.2)
      else if env.isDir entry.source then
        match env.copyFails entry.source dest with
        | some e =>
          ([Event.error ("Failed to copy ".data ++ entry.source
            ++ " -> ".data ++ dest ++ ": ".data ++ e)], false)
        | none =>
          let r := copyEntries env output_dir rest
          (Event.output ("Copied ".data ++ entry.source
            ++ " -> ".data ++ dest) :: r.1, r.2)
      else
        copyEntries env output_dir rest

/-- `QtCompiler.copy_sources_to_output` body (its final re-invocation of
`process_finished` is performed by the copy branch of the embedded
`process_finished` when the returned flag is `true`). -/
def copy_sources_to_output (env : Env) (external_source : List Entry)
    (output_dir : Str) : List Event × Bool :=
  copyEntries env output_dir external_source

/-- The fixed artifact patterns deleted by `clean_build_files`. -/
def patterns : List Str := ["*.cpp".data, "*.c".data, "*.o".data]

/-- One iteration of the deletion loop in `clean_build_files`: a failing
removal appends a warning line to the output channel, a succeeding one
increments the removed-files counter. -/
def cleanOne (env : Env) (acc : List Event × Nat) (file_path : Str) :
    List Event × Nat :=
  match env.removeFails file_path with
  | none => (acc.1, acc.2 + 1)
  | some e =>
    (acc.1 ++ [Event.output ("[Error] Could not delete ".data ++ file_path
      ++ ": ".data ++ e ++ "\n".data)], acc.2)

/-- The files `clean_build_files` iterates over: the non-recursive glob of
each pattern directly inside the output-config sub-directory. -/
def cleanTargets (env : Env) (st : CompilerState) : List Str :=
  (patterns.map (fun p =>
    env.globFiles (joinPath st.output_path (configDirOf st.is_release)) p)).flatten

/-- `QtCompiler.clean_build_files`: nothing when the output path does not
exist; otherwise delete every globbed file, downgrading per-file failures
to output warnings, and conclude with the removed-file count. -/
def clean_build_files (env : Env) (st : CompilerState) : List Event :=
  if env.pathExists st.output_path then
    let r := (cleanTargets env st).foldl (cleanOne env) ([], 0)
    r.1 ++ [Event.output ("Cleaned ".data ++ natToChars r.2
      ++ " build artifact files.\n".data)]
  else []

/-- Result of one `process_finished` invocation: emitted events, the next
process started (if any), and the updated compiler state. -/
structure StepOut where
  events : List Event
  started : Option ProcStart
  state : CompilerState
deriving Repr

/-- `QtCompiler.process_finished`: the completion handler and state
machine. `fuel` bounds the single re-entry performed by
`copy_sources_to_output` (the source calls `process_finished` again after a
fully successful copy; by then `copy_sources_started` is set, so the
re-entry cannot recurse further — fuel 2 is always enough). On success it
starts make, then windeployqt, then runs the copy loop, then one
windeployqt per QML-flagged destination, then emits the finished signal
(and optionally cleans). On failure it emits "Build failed" when
`make_started` is set, else "Deployment failed" when `deploy_started` is
set, else nothing; an abnormal exit with code 0 emits the generic
abnormal-exit message. -/
def process_finished (env : Env) :
    Nat → CompilerState → Nat → Bool → StepOut
  | 0, st, _, _ => { events := [], started := none, state := st }
  | fuel + 1, st, exit_code, normalExit =>
    if normalExit = true ∧ exit_code = 0 then
      if st.make_started = false then
        let st2 := { st with make_started := true }
        let make_tool := joinPath st.mingw_bin "mingw32-make.exe".data
        if env.pathExists make_tool then
          { events := [Event.output "Running make...\n".data]
            started := some { program := make_tool, args := [] }
            state := st2 }
        else
          { events := [Event.error ("Make tool not found: ".data ++ make_tool)]
            started := none
            state := st2 }
      else if st.deploy_started = false then
        let st2 := { st with deploy_started := true }
        let windeploy_exe := joinPath st.qt_bin "windeployqt.exe".data
        let exe_name := get_exe_name_from_pro env st.project_file
        let exe_path :=
          joinPath (joinPath st.output_path (configDirOf st.is_release)) exe_name
        if env.pathExists exe_path then
          { events := [Event.output "Running windeployqt...\n".data]
            started := some { program := windeploy_exe, args := [exe_path] }
            state := st2 }
        else
          { events := [Event.error ("Executable not found: ".data ++ exe_path)]
            started := none
            state := st2 }
      else if st.copy_sources_started = false ∧ st.external_sources ≠ [] then
        let st2 := { st with copy_sources_started := true }
        let build_dir := joinPath st.output_path (configDirOf st.is_release)
        let r := copy_sources_to_output env st.external_sources build_dir
        if r.2 then
          let k := process_finished env fuel st2 exit_code normalExit
          { events := Event.output "Copying external sources...\n".data
              :: r.1 ++ k.events
            started := k.started
            state := k.state }
        else
          { events := Event.output "Copying external sources...\n".data :: r.1
            started := none
            state := st2 }
      else if st.qml_dll_deploy_count < st.qml_dll_need_deploy_files.length then
        let dll := st.qml_dll_need_deploy_files.getD st.qml_dll_deploy_count []
        let dll_path :=
          joinPath (joinPath st.output_path (configDirOf st.is_release))
            (lstripSeps dll)
        let windeploy_exe := joinPath st.qt_bin "windeployqt.exe".data
        let qml_path := joinPath (parentDir st.qt_bin) "qml".data
        if env.pathExists windeploy_exe && env.pathExists qml_path then
          { events := [Event.output ("Deploying QML DLL: ".data ++ dll_path
              ++ "\n".data)]
            started := some
              { program := windeploy_exe
                args := [dll_path, "--qmldir".data, qml_path] }
            state := { st with qml_dll_deploy_count := st.qml_dll_deploy_count + 1 } }
        else
          { events := [Event.error ("Path not found: ".data ++ windeploy_exe
              ++ " or ".data ++ qml_path)]
            started := none
            state := st }
      else
        let build_dir := joinPath st.output_path (configDirOf st.is_release)
        let cleanEvs := if st.need_clean then clean_build_files env st else []
        { events := Event.finished build_dir :: cleanEvs
            ++ [Event.output packagingMsg]
          started := none
          state := st }
    else
      if exit_code ≠ 0 then
        if st.make_started then
          { events := [Event.error ("Build failed with exit code ".data
              ++ natToChars exit_code)]
            started := none, state := st }
        else if st.deploy_started then
          { events := [Event.error ("Deployment failed with exit code ".data
              ++ natToChars exit_code)]
            started := none, state := st }
        else
          { events := [], started := none, state := st }
      else if normalExit = false then
        { events := [Event.error ("Process exited abnormally, code: ".data
            ++ natToChars exit_code)]
          started := none, state := st }
      else
        { events := [], started := none, state := st }

/-- `QtCompiler.stop_process`: kill the running process and emit the
cancellation message on the error channel. The kill makes the OS report
the process as finished (with a crash exit status), so the `finished`
handler still runs afterwards. -/
def stop_process : List Event :=
  [Event.error stopMsg]

/-- Feed a list of process-completion results (exit code, normal-exit flag)
to the pipeline, one per pending process, collecting the emitted events,
the processes started along the way and the final state. -/
def drive (env : Env) :
    CompilerState → Option ProcStart → List (Nat × Bool) →
    List Event × List ProcStart × CompilerState
  | st, none, _ => ([], [], st)
  | st, some _, [] => ([], [], st)
  | st, some _, (code, normal) :: rest =>
    let r := process_finished env 2 st code normal
    let d := drive env r.state r.started rest
    (r.events ++ d.1, r.started.toList ++ d.2.1, d.2.2)

/-- A whole run: events, processes started and final state. -/
structure RunOut where
  events : List Event
  procs : List ProcStart
  final : CompilerState
deriving Repr

/-- Start a run with `compile_qt_project` and drive it with the given
process-completion results. -/
def runBuild (env : Env) (basePATH : Str)
    (project_file qt_bin mingw_bin output_path : Str)
    (external_sources : List Entry) (is_release need_clean : Bool)
    (results : List (Nat × Bool)) : RunOut :=
  let s := compile_qt_project env basePATH project_file qt_bin mingw_bin
    output_path external_sources is_release need_clean
  let d := drive env s.state s.started results
  { events := s.events ++ d.1
    procs := s.started.toList ++ d.2.1
    final := d.2.2 }

/-- Event classifiers and counters. -/
def isErrorEvent : Event → Bool
  | Event.error _ => true
  | _ => false

/-- Is the event a finished signal. -/
def isFinishedEvent : Event → Bool
  | Event.finished _ => true
  | _ => false

/-- Is the event an output-channel line. -/
def isOutputEvent : Event → Bool
  | Event.output _ => true
  | _ => false

/-- Number of error-signal emissions in a trace. -/
def countErrors (evs : List Event) : Nat := (evs.filter isErrorEvent).length

/-- Number of finished-signal emissions in a trace. -/
def countFinished (evs : List Event) : Nat :=
  (evs.filter isFinishedEvent).length

/-- No finished signal occurs anywhere after an error signal. -/
def noFinishedAfterError : List Event → Bool
  | [] => true
  | Event.error _ :: rest => !(rest.any isFinishedEvent)
  | Event.output _ :: rest => noFinishedAfterError rest
  | Event.finished _ :: rest => noFinishedAfterError rest

/-- The warning lines produced by the deletion loop, one per file whose
removal raises, in file order (a characterization of the loop, proved
below). -/
def cleanWarnings (env : Env) (files : List Str) : List Event :=
  files.filterMap (fun f =>
    match env.removeFails f with
    | some e => some (Event.output ("[Error] Could not delete ".data ++ f
        ++ ": ".data ++ e ++ "\n".data))
    | none => none)

/-- The number of files whose removal succeeds, in a list of candidates. -/
def removedCount (env : Env) (files : List Str) : Nat :=
  (files.filter (fun f => env.removeFails f = none)).length

/-- The PATH value the specification describes: the two bin directories
prepended to the inherited search path. Stated from the spec sentence
"with the tool's own and companion toolchain's bin directories prepended
to the process's search-path environment variable", for comparison with
the source's `env["PATH"] += ";" + qt_bin + ";" + mingw_bin`. -/
def prependedPATH (basePATH qt_bin mingw_bin : Str) : Str :=
  qt_bin ++ ";".data ++ mingw_bin ++ ";".data ++ basePATH

/-- The copy destination the claim describes: the output directory joined
with the destination after stripping leading path separators of both
kinds (so the joined argument is never rooted and the join never discards
the output directory), for comparison with the source's
`dest_rel.lstrip("/")`. -/
def destForSpec (output_dir dest_rel : Str) : Str :=
  ntJoin output_dir (lstripSeps dest_rel)

/-- A world in which every path exists, every source is a plain file, and
no I/O call fails; the project file contains a single `TARGET = foo`
line. Used as the concrete instantiation in closed theorems. -/
def envAll : Env :=
  { pathExists := fun _ => true
    isFile := fun _ => true
    isDir := fun _ => false
    copyFails := fun _ _ => none
    globFiles := fun _ _ => []
    removeFails := fun _ => none
    proLines := fun _ => ["TARGET = foo".data] }

/-- `envAll` with the make tool absent from the filesystem. -/
def envNoMake : Env :=
  { envAll with
    pathExists := fun p => !(p = "M/bin/mingw32-make.exe".data) }

/-- The run state right after `compile_qt_project` captured a concrete
configuration: all stage flags clear. -/
def stConf : CompilerState :=
  { make_started := false
    deploy_started := false
    copy_sources_started := false
    qml_dll_deploy_count := 0
    output_path := "O".data
    qt_bin := "Q/bin".data
    mingw_bin := "M/bin".data
    project_file := "C:/p/app.pro".data
    external_sources := []
    qml_dll_need_deploy_files := []
    is_release := true
    need_clean := false }

/-- The run state while make runs (the `Building` stage). -/
def stBuild : CompilerState := { stConf with make_started := true }

/-- The run state while windeployqt runs (the `Deploying` stage). -/
def stDep : CompilerState :=
  { stConf with make_started := true, deploy_started := true }

/-- A trace without finished signals trivially has none after an error. -/
theorem noFinishedAfterError_of_no_finished (evs : List Event)
    (h : evs.any isFinishedEvent = false) :
    noFinishedAfterError evs = true := by
  induction evs with
  | nil => rfl
  | cons e rest ih =>
    cases e with
    | output m =>
      simp only [List.any_cons, Bool.or_eq_false_iff] at h
      simpa [noFinishedAfterError] using ih h.2
    | finished d => simp [List.any_cons, isFinishedEvent] at h
    | error m =>
      simp only [List.any_cons, Bool.or_eq_false_iff] at h
      simp [noFinishedAfterError, h.2]

/-- A trace without error signals trivially has no finished after one. -/
theorem noFinishedAfterError_of_no_error (evs : List Event)
    (h : evs.any isErrorEvent = false) :
    noFinishedAfterError evs = true := by
  induction evs with
  | nil => rfl
  | cons e rest ih =>
    cases e with
    | output m =>
      simp only [List.any_cons, Bool.or_eq_false_iff] at h
      simpa [noFinishedAfterError] using ih h.2
    | finished d =>
      simp only [List.any_cons, Bool.or_eq_false_iff] at h
      simpa [noFinishedAfterError] using ih h.2
    | error m => simp [List.any_cons, isErrorEvent] at h

/-- Prepending an error-free trace does not affect the
finished-after-error discipline. -/
theorem noFinishedAfterError_append (a b : List Event)
    (h : a.any isErrorEvent = false) :
    noFinishedAfterError (a ++ b) = noFinishedAfterError b := by
  induction a with
  | nil => rfl
  | cons e rest ih =>
    cases e with
    | output m =>
      simp only [List.any_cons, Bool.or_eq_false_iff] at h
      simpa [noFinishedAfterError] using ih h.2
    | finished d =>
      simp only [List.any_cons, Bool.or_eq_false_iff] at h
      simpa [noFinishedAfterError] using ih h.2
    | error m => simp [List.any_cons, isErrorEvent] at h

/-- The copy loop never emits a finished signal. -/
theorem copyEntries_no_finished (env : Env) (od : Str) (es : List Entry) :
    (copyEntries env od es).1.any isFinishedEvent = false := by
  induction es with
  | nil => rfl
  | cons e rest ih =>
    simp only [copyEntries]
    split
    · simpa [isFinishedEvent] using ih
    · split
      · split
        · simp [isFinishedEvent]
        · simpa [isFinishedEvent] using ih
      · split
        · split
          · simp [isFinishedEvent]
          · simpa [isFinishedEvent] using ih
        · exact ih

/-- A copy loop that ran to completion emitted no error signal. -/
theorem copyEntries_ok_no_error (env : Env) (od : Str) (es : List Entry) :
    (copyEntries env od es).2 = true →
    (copyEntries env od es).1.any isErrorEvent = false := by
  induction es with
  | nil => intro _; rfl
  | cons e rest ih =>
    simp only [copyEntries]
    split
    · intro h
      simpa [isErrorEvent] using ih (by simpa using h)
    · split
      · split
        · intro h
          simp at h
        · intro h
          simpa [isErrorEvent] using ih (by simpa using h)
      · split
        · split
          · intro h
            simp at h
          · intro h
            simpa [isErrorEvent] using ih (by simpa using h)
        · exact ih

/-- When no copy operation can raise, the copy loop runs to completion. -/
theorem copyEntries_ok (env : Env) (od : Str) (es : List Entry)
    (h : ∀ s d, env.copyFails s d = none) :
    (copyEntries env od es).2 = true := by
  induction es with
  | nil => rfl
  | cons e rest ih =>
    simp only [copyEntries]
    split
    · exact ih
    · split
      · simp only [h]
        exact ih
      · split
        · simp only [h]
          exact ih
        · exact ih

/-- Filter form of `copyEntries_no_finished`. -/
theorem copyEntries_filter_finished (env : Env) (od : Str) (es : List Entry) :
    (copyEntries env od es).1.filter isFinishedEvent = [] := by
  have h := copyEntries_no_finished env od es
  simpa [List.filter_eq_nil_iff, List.any_eq_true] using
    (by simpa [List.any_eq_true] using h :
      ∀ x ∈ (copyEntries env od es).1, ¬isFinishedEvent x = true)

/-- Filter form of `copyEntries_ok_no_error`. -/
theorem copyEntries_filter_error (env : Env) (od : Str) (es : List Entry)
    (h : (copyEntries env od es).2 = true) :
    (copyEntries env od es).1.filter isErrorEvent = [] := by
  have h2 := copyEntries_ok_no_error env od es h
  simpa [List.filter_eq_nil_iff, List.any_eq_true] using
    (by simpa [List.any_eq_true] using h2 :
      ∀ x ∈ (copyEntries env od es).1, ¬isErrorEvent x = true)

/-- The deletion loop of `clean_build_files`, characterized: it appends
one warning per failing removal and counts the succeeding ones. -/
theorem cleanFold (env : Env) (files : List Str) :
    ∀ acc : List Event × Nat,
      files.foldl (cleanOne env) acc
        = (acc.1 ++ cleanWarnings env files, acc.2 + removedCount env files) := by
  induction files with
  | nil => intro acc; simp [cleanWarnings, removedCount]
  | cons f fs ih =>
    intro acc
    simp only [List.foldl_cons, ih]
    cases hf : env.removeFails f with
    | none =>
      simp only [cleanOne, hf, cleanWarnings, removedCount, List.filterMap_cons,
        List.filter_cons]
      simp [hf, removedCount, cleanWarnings]
      omega
    | some e =>
      simp only [cleanOne, hf, cleanWarnings, removedCount, List.filterMap_cons,
        List.filter_cons]
      simp [hf, removedCount, cleanWarnings]

/-- `clean_build_files`, characterized, when the output path exists. -/
theorem clean_build_files_eq (env : Env) (st : CompilerState)
    (h : env.pathExists st.output_path = true) :
    clean_build_files env st
      = cleanWarnings env (cleanTargets env st)
        ++ [Event.output ("Cleaned ".data
            ++ natToChars (removedCount env (cleanTargets env st))
            ++ " build artifact files.\n".data)] := by
  simp [clean_build_files, h, cleanFold]

/-- Every event the clean-up step emits is an output-channel line. -/
theorem clean_all_output (env : Env) (st : CompilerState) :
    (clean_build_files env st).all isOutputEvent = true := by
  cases h : env.pathExists st.output_path with
  | false => simp [clean_build_files, h]
  | true =>
    rw [clean_build_files_eq env st h]
    have hw : ∀ files : List Str,
        (cleanWarnings env files).all isOutputEvent = true := by
      intro files
      induction files with
      | nil => rfl
      | cons f fs ih =>
        simp only [cleanWarnings, List.filterMap_cons]
        cases env.removeFails f <;> simp_all [cleanWarnings, isOutputEvent]
    simp [List.all_append, hw, isOutputEvent]

/-- An all-output trace contains no error signal. -/
theorem all_output_no_error (evs : List Event)
    (h : evs.all isOutputEvent = true) : evs.any isErrorEvent = false := by
  induction evs with
  | nil => rfl
  | cons e rest ih =>
    cases e <;> simp_all [isOutputEvent, isErrorEvent]

/-- An all-output trace contains no finished signal. -/
theorem all_output_no_finished (evs : List Event)
    (h : evs.all isOutputEvent = true) : evs.any isFinishedEvent = false := by
  induction evs with
  | nil => rfl
  | cons e rest ih =>
    cases e <;> simp_all [isOutputEvent, isFinishedEvent]

/-- Transition out of `Configuring`: qmake succeeded, the make tool
exists, make is started. -/
theorem step_make (env : Env) (st : CompilerState) (fuel : Nat)
    (h1 : st.make_started = false)
    (h2 : env.pathExists (joinPath st.mingw_bin "mingw32-make.exe".data) = true) :
    process_finished env (fuel + 1) st 0 true =
      { events := [Event.output "Running make...\n".data]
        started := some
          { program := joinPath st.mingw_bin "mingw32-make.exe".data
            args := [] }
        state := { st with make_started := true } } := by
  simp [process_finished, h1, h2]

/-- Transition out of `Configuring` when the make tool is missing: the
make-started flag is set, an error naming the tool is emitted, nothing is
started. -/
theorem step_make_missing (env : Env) (st : CompilerState) (fuel : Nat)
    (h1 : st.make_started = false)
    (h2 : env.pathExists (joinPath st.mingw_bin "mingw32-make.exe".data) = false) :
    process_finished env (fuel + 1) st 0 true =
      { events := [Event.error ("Make tool not found: ".data
          ++ joinPath st.mingw_bin "mingw32-make.exe".data)]
        started := none
        state := { st with make_started := true } } := by
  simp [process_finished, h1, h2]

/-- Transition out of `Building`: make succeeded, the produced executable
exists, windeployqt is started on it (without any existence check on the
windeployqt executable itself). -/
theorem step_deploy (env : Env) (st : CompilerState) (fuel : Nat)
    (h1 : st.make_started = true)
    (h2 : st.deploy_started = false)
    (h3 : env.pathExists (joinPath (joinPath st.output_path
      (configDirOf st.is_release)) (get_exe_name_from_pro env st.project_file))
      = true) :
    process_finished env (fuel + 1) st 0 true =
      { events := [Event.output "Running windeployqt...\n".data]
        started := some
          { program := joinPath st.qt_bin "windeployqt.exe".data
            args := [joinPath (joinPath st.output_path
              (configDirOf st.is_release))
              (get_exe_name_from_pro env st.project_file)] }
        state := { st with deploy_started := true } } := by
  simp [process_finished, h1, h2, h3]

/-- Transition into the copy step when it runs to completion: the events
are the announcement, the copy loop's events, then those of the re-invoked
completion handler. -/
theorem step_copy_ok (env : Env) (st : CompilerState) (fuel : Nat)
    (h1 : st.make_started = true)
    (h2 : st.deploy_started = true)
    (h3 : st.copy_sources_started = false)
    (h4 : st.external_sources ≠ [])
    (h5 : (copyEntries env (joinPath st.output_path
      (configDirOf st.is_release)) st.external_sources).2 = true) :
    process_finished env (fuel + 1) st 0 true =
      { events := Event.output "Copying external sources...\n".data
          :: (copyEntries env (joinPath st.output_path
              (configDirOf st.is_release)) st.external_sources).1
          ++ (process_finished env fuel
              { st with copy_sources_started := true } 0 true).events
        started := (process_finished env fuel
          { st with copy_sources_started := true } 0 true).started
        state := (process_finished env fuel
          { st with copy_sources_started := true } 0 true).state } := by
  simp [process_finished, h1, h2, h3, h4, copy_sources_to_output, h5]

/-- Transition into the QML-deployment step: the next flagged destination
is deployed with windeployqt and the index advances. -/
theorem step_qml (env : Env) (st : CompilerState) (fuel : Nat)
    (h1 : st.make_started = true)
    (h2 : st.deploy_started = true)
    (h3 : st.copy_sources_started = true ∨ st.external_sources = [])
    (h4 : st.qml_dll_deploy_count < st.qml_dll_need_deploy_files.length)
    (h5 : env.pathExists (joinPath st.qt_bin "windeployqt.exe".data) = true)
    (h6 : env.pathExists (joinPath (parentDir st.qt_bin) "qml".data) = true) :
    process_finished env (fuel + 1) st 0 true =
      { events := [Event.output ("Deploying QML DLL: ".data
          ++ joinPath (joinPath st.output_path (configDirOf st.is_release))
            (lstripSeps (st.qml_dll_need_deploy_files.getD
              st.qml_dll_deploy_count []))
          ++ "\n".data)]
        started := some
          { program := joinPath st.qt_bin "windeployqt.exe".data
            args := [joinPath (joinPath st.output_path
                (configDirOf st.is_release))
                (lstripSeps (st.qml_dll_need_deploy_files.getD
                  st.qml_dll_deploy_count [])),
              "--qmldir".data,
              joinPath (parentDir st.qt_bin) "qml".data] }
        state := { st with
          qml_dll_deploy_count := st.qml_dll_deploy_count + 1 } } := by
  rcases h3 with h3 | h3 <;>
    simp [process_finished, h1, h2, h3, h4, h5, h6]

/-- The terminal success transition: the finished signal, then the
optional clean-up, then the packaging-finished line; no process starts. -/
theorem step_finish (env : Env) (st : CompilerState) (fuel : Nat)
    (h1 : st.make_started = true)
    (h2 : st.deploy_started = true)
    (h3 : st.copy_sources_started = true ∨ st.external_sources = [])
    (h4 : st.qml_dll_need_deploy_files.length ≤ st.qml_dll_deploy_count) :
    process_finished env (fuel + 1) st 0 true =
      { events := Event.finished (joinPath st.output_path
            (configDirOf st.is_release))
          :: (if st.need_clean then clean_build_files env st else [])
          ++ [Event.output packagingMsg]
        started := none
        state := st } := by
  rcases h3 with h3 | h3 <;>
    simp [process_finished, h1, h2, h3, Nat.not_lt.mpr h4]

/-- A non-zero exit after make has been started is reported as a build
failure with the exit code (this branch also catches failures of the
windeployqt invocations, since `make_started` stays set). -/
theorem step_fail_build (env : Env) (st : CompilerState) (fuel : Nat)
    (c : Nat) (n : Bool)
    (hc : c ≠ 0) (h1 : st.make_started = true) :
    process_finished env (fuel + 1) st c n =
      { events := [Event.error ("Build failed with exit code ".data
          ++ natToChars c)]
        started := none
        state := st } := by
  simp [process_finished, hc, h1]

/-- A non-zero exit before make was started (the qmake stage) emits
nothing at all: the failure branch has no case for it. -/
theorem step_fail_silent (env : Env) (st : CompilerState) (fuel : Nat)
    (c : Nat) (n : Bool)
    (hc : c ≠ 0) (h1 : st.make_started = false)
    (h2 : st.deploy_started = false) :
    process_finished env (fuel + 1) st c n =
      { events := [], started := none, state := st } := by
  simp [process_finished, hc, h1, h2]

/-- An abnormal termination with exit code 0 emits the generic
abnormal-exit message. -/
theorem step_abnormal (env : Env) (st : CompilerState) (fuel : Nat) :
    process_finished env (fuel + 1) st 0 false =
      { events := [Event.error ("Process exited abnormally, code: ".data
          ++ natToChars 0)]
        started := none
        state := st } := by
  simp [process_finished]

/-- Unfolding lemma: an output line at the head. -/
theorem noFin_cons_output (m : Str) (l : List Event) :
    noFinishedAfterError (Event.output m :: l) = noFinishedAfterError l := rfl

/-- Unfolding lemma: a finished signal at the head. -/
theorem noFin_cons_finished (d : Str) (l : List Event) :
    noFinishedAfterError (Event.finished d :: l) = noFinishedAfterError l := rfl

/-- Unfolding lemma: an error signal at the head. -/
theorem noFin_cons_error (m : Str) (l : List Event) :
    noFinishedAfterError (Event.error m :: l) = !(l.any isFinishedEvent) := rfl

/-- Unfolding lemma relating the wrapper to the loop. -/
theorem copy_sources_to_output_eq (env : Env) (es : List Entry) (od : Str) :
    copy_sources_to_output env es od = copyEntries env od es := rfl

/-- The completion handler's event discipline: within one invocation no
finished signal follows an error signal, and an invocation that emitted an
error signal did not start a process. -/
theorem process_finished_inv (env : Env) :
    ∀ (fuel : Nat) (st : CompilerState) (c : Nat) (n : Bool),
      noFinishedAfterError (process_finished env fuel st c n).events = true ∧
      ((process_finished env fuel st c n).events.any isErrorEvent = true →
        (process_finished env fuel st c n).started = none) := by
  intro fuel
  induction fuel with
  | zero =>
    intro st c n
    exact ⟨rfl, fun _ => rfl⟩
  | succ fuel ih =>
    intro st c n
    simp only [process_finished]
    split
    · split
      · split
        · constructor
          · rfl
          · intro h
            simp [isErrorEvent] at h
        · exact ⟨rfl, fun _ => rfl⟩
      · split
        · split
          · constructor
            · rfl
            · intro h
              simp [isErrorEvent] at h
          · exact ⟨rfl, fun _ => rfl⟩
        · split
          · split
            · rename_i hok
              rw [copy_sources_to_output_eq] at hok
              have hcopy_err := copyEntries_ok_no_error env _ _ hok
              obtain ⟨ihA, ihB⟩ := ih { st with copy_sources_started := true } c n
              constructor
              · simp only [copy_sources_to_output_eq, List.cons_append,
                  noFin_cons_output]
                rw [noFinishedAfterError_append _ _ hcopy_err]
                exact ihA
              · intro h
                simp only [copy_sources_to_output_eq, List.any_cons,
                  List.any_append, isErrorEvent, Bool.false_or,
                  Bool.or_eq_true] at h
                rcases h with h | h
                · rw [hcopy_err] at h
                  exact absurd h (by simp)
                · exact ihB h
            · rename_i hfail
              have hcopy_fin := copyEntries_no_finished env
                (joinPath st.output_path (configDirOf st.is_release))
                st.external_sources
              constructor
              · simp only [copy_sources_to_output_eq, noFin_cons_output]
                exact noFinishedAfterError_of_no_finished _ hcopy_fin
              · intro _
                trivial
          · split
            · split
              · constructor
                · rfl
                · intro h
                  simp [isErrorEvent] at h
              · exact ⟨rfl, fun _ => rfl⟩
            · have hclean := clean_all_output env st
              constructor
              · simp only [List.cons_append, noFin_cons_finished]
                refine noFinishedAfterError_of_no_error _ ?_
                cases hnc : st.need_clean with
                | false => simp [isErrorEvent]
                | true =>
                  simp [List.any_append, all_output_no_error _ hclean,
                    isErrorEvent]
              · intro _
                trivial
    · split
      · split
        · exact ⟨rfl, fun _ => rfl⟩
        · split
          · exact ⟨rfl, fun _ => rfl⟩
          · exact ⟨rfl, fun _ => rfl⟩
      · split
        · exact ⟨rfl, fun _ => rfl⟩
        · exact ⟨rfl, fun _ => rfl⟩

/-- Driving any number of completions never places a finished signal
after an error signal. -/
theorem drive_noFin (env : Env) :
    ∀ (results : List (Nat × Bool)) (st : CompilerState) (p : Option ProcStart),
      noFinishedAfterError (drive env st p results).1 = true := by
  intro results
  induction results with
  | nil =>
    intro st p
    cases p <;> simp [drive, noFinishedAfterError]
  | cons r rest ih =>
    intro st p
    cases p with
    | none => simp [drive, noFinishedAfterError]
    | some q =>
      obtain ⟨code, normal⟩ := r
      simp only [drive]
      obtain ⟨hA, hB⟩ := process_finished_inv env 2 st code normal
      cases herr : (process_finished env 2 st code normal).events.any
          isErrorEvent with
      | true =>
        rw [hB herr]
        simp only [drive, List.append_nil]
        exact hA
      | false =>
        rw [noFinishedAfterError_append _ _ herr]
        exact ih _ _

/-- For every run, whatever the configuration, world and completion
results, no finished signal follows an error signal. -/
theorem runBuild_noFin (env : Env) (basePATH : Str)
    (project_file qt_bin mingw_bin output_path : Str)
    (external_sources : List Entry) (is_release need_clean : Bool)
    (results : List (Nat × Bool)) :
    noFinishedAfterError
      (runBuild env basePATH project_file qt_bin mingw_bin output_path
        external_sources is_release need_clean results).events = true := by
  cases hq : env.pathExists (joinPath qt_bin "qmake.exe".data) with
  | true =>
    simp only [runBuild, compile_qt_project, hq, if_true,
      List.singleton_append, noFin_cons_output]
    exact drive_noFin env results _ _
  | false =>
    simp only [runBuild, compile_qt_project, hq, Bool.false_eq_true,
      if_false, drive, List.singleton_append, List.append_nil]
    simp [noFin_cons_error]

/-- C1: the claim says a non-zero exit during any of Configuring, Building
or Deploying yields exactly one Error event naming that stage together
with the exit code. The code contradicts it at two inputs, evaluated here:
a non-zero exit while qmake runs (no stage flag set yet) emits no event at
all, because the failure branch has no case for the configure stage; and a
non-zero exit while windeployqt runs (both flags set) is reported as
"Build failed", because the cumulative `_make_started` flag shadows the
dead `_deploy_started` branch. In both cases no later stage is entered. -/
theorem C1_theorem :
    (process_finished envAll 2 stConf 2 true).events = []
    ∧ (process_finished envAll 2 stConf 2 true).started = none
    ∧ (process_finished envAll 2 stDep 3 true).events
        = [Event.error ("Build failed with exit code ".data ++ natToChars 3)]
    ∧ (process_finished envAll 2 stDep 3 true).started = none := by
  decide

/-- C2 counterexample: issuing stop while Building does not emit exactly
one cancellation Error. The stop itself emits the cancellation message,
and the killed process's completion (crash exit status, Windows kill exit
code 62097) is then handled by `process_finished`, which emits a second
error; the run's cancellation trace carries two error events. -/
theorem C2_counterexample :
    countErrors (stop_process
      ++ (process_finished envAll 2 stBuild 62097 false).events) = 2 := by
  decide

/-- C2 as amended: (a) a fresh run starts with no residual stage flags,
because `compile_qt_project` resets all four of them; (b) in every run no
Finished event follows an Error event; (c) a run whose process fails with
a non-zero exit during Building emits exactly one Error and no Finished;
(d) a stop while Building emits the cancellation Error first, and the
killed process's completion then adds exactly one more error event. -/
theorem C2_theorem :
    (∀ (env : Env) (basePATH pf qb mb op : Str) (es : List Entry)
        (rel cl : Bool),
      (compile_qt_project env basePATH pf qb mb op es rel cl).state.make_started
          = false
        ∧ (compile_qt_project env basePATH pf qb mb op es rel cl).state.deploy_started
          = false
        ∧ (compile_qt_project env basePATH pf qb mb op es rel cl).state.copy_sources_started
          = false
        ∧ (compile_qt_project env basePATH pf qb mb op es rel cl).state.qml_dll_deploy_count
          = 0)
    ∧ (∀ (env : Env) (basePATH pf qb mb op : Str) (es : List Entry)
        (rel cl : Bool) (results : List (Nat × Bool)),
      noFinishedAfterError
        (runBuild env basePATH pf qb mb op es rel cl results).events = true)
    ∧ (∀ (env : Env) (basePATH pf qb mb op : Str) (rel cl : Bool) (c : Nat),
      env.pathExists (joinPath qb "qmake.exe".data) = true →
      env.pathExists (joinPath mb "mingw32-make.exe".data) = true →
      c ≠ 0 →
      countErrors (runBuild env basePATH pf qb mb op [] rel cl
          [(0, true), (c, true)]).events = 1
        ∧ countFinished (runBuild env basePATH pf qb mb op [] rel cl
          [(0, true), (c, true)]).events = 0)
    ∧ (∀ (env : Env) (st : CompilerState) (c : Nat),
      st.make_started = true →
      countErrors (stop_process
          ++ (process_finished env 2 st c false).events) = 2
        ∧ (stop_process ++ (process_finished env 2 st c false).events).head?
          = some (Event.error stopMsg)) := by
  refine ⟨?_, ?_, ?_, ?_⟩
  · intro env basePATH pf qb mb op es rel cl
    cases hq : env.pathExists (joinPath qb "qmake.exe".data) <;>
      simp [compile_qt_project, hq]
  · intro env basePATH pf qb mb op es rel cl results
    exact runBuild_noFin env basePATH pf qb mb op es rel cl results
  · intro env basePATH pf qb mb op rel cl c hq hm hc
    simp only [runBuild, compile_qt_project, hq, if_true]
    simp only [drive]
    rw [step_make env _ 1 rfl hm]
    simp only [drive]
    rw [step_fail_build env _ 1 c true hc rfl]
    simp only [drive]
    simp [countErrors, countFinished, isErrorEvent, isFinishedEvent,
      Option.toList]
  · intro env st c h1
    constructor
    · cases c with
      | zero =>
        rw [step_abnormal env st 1]
        simp [stop_process, countErrors, isErrorEvent]
      | succ m =>
        rw [step_fail_build env st 1 (m + 1) false (Nat.succ_ne_zero m) h1]
        simp [stop_process, countErrors, isErrorEvent]
    · simp [stop_process]

/-- C2 witness: the amended statement instantiated at a concrete world,
configuration and state, with every hypothesis discharged. -/
theorem C2_witness :
    ((compile_qt_project envAll "P".data "C:/p/app.pro".data "Q/bin".data
        "M/bin".data "O".data [] true false).state.make_started = false
      ∧ (compile_qt_project envAll "P".data "C:/p/app.pro".data "Q/bin".data
        "M/bin".data "O".data [] true false).state.deploy_started = false
      ∧ (compile_qt_project envAll "P".data "C:/p/app.pro".data "Q/bin".data
        "M/bin".data "O".data [] true false).state.copy_sources_started = false
      ∧ (compile_qt_project envAll "P".data "C:/p/app.pro".data "Q/bin".data
        "M/bin".data "O".data [] true false).state.qml_dll_deploy_count = 0)
    ∧ noFinishedAfterError
        (runBuild envAll "P".data "C:/p/app.pro".data "Q/bin".data
          "M/bin".data "O".data [] true false [(0, true), (2, true)]).events
        = true
    ∧ (countErrors (runBuild envAll "P".data "C:/p/app.pro".data "Q/bin".data
          "M/bin".data "O".data [] true false [(0, true), (2, true)]).events = 1
      ∧ countFinished (runBuild envAll "P".data "C:/p/app.pro".data
          "Q/bin".data "M/bin".data "O".data [] true false
          [(0, true), (2, true)]).events = 0)
    ∧ (countErrors (stop_process
          ++ (process_finished envAll 2 stBuild 62097 false).events) = 2
      ∧ (stop_process
          ++ (process_finished envAll 2 stBuild 62097 false).events).head?
        = some (Event.error stopMsg)) :=
  ⟨(C2_theorem.1 envAll "P".data "C:/p/app.pro".data "Q/bin".data
      "M/bin".data "O".data [] true false),
   (C2_theorem.2.1 envAll "P".data "C:/p/app.pro".data "Q/bin".data
      "M/bin".data "O".data [] true false [(0, true), (2, true)]),
   (C2_theorem.2.2.1 envAll "P".data "C:/p/app.pro".data "Q/bin".data
      "M/bin".data "O".data true false 2 (by decide) (by decide)
      (by decide)),
   (C2_theorem.2.2.2 envAll stBuild 62097 (by decide))⟩

/-- A world in which no path exists at all. -/
def envNone : Env := { envAll with pathExists := fun _ => false }

/-- A world in which every copy operation raises. -/
def envCopyFail : Env :=
  { envAll with copyFails := fun _ _ => some "disk full".data }

/-- C5 counterexample: with qmake present but the build tool absent, the
claim predicts an immediate failure with no external process started; the
code instead starts the qmake process and emits no error at run start
(the missing make tool is only discovered after qmake completes). -/
theorem C5_counterexample :
    (compile_qt_project envNoMake "P".data "C:/p/app.pro".data "Q/bin".data
        "M/bin".data "O".data [] true false).started
      = some { program := joinPath "Q/bin".data "qmake.exe".data
               args := ["C:/p/app.pro".data, "CONFIG+=release".data] }
    ∧ countErrors (compile_qt_project envNoMake "P".data "C:/p/app.pro".data
        "Q/bin".data "M/bin".data "O".data [] true false).events = 0
    ∧ envNoMake.pathExists
        (joinPath "M/bin".data "mingw32-make.exe".data) = false := by
  decide

/-- C5 as amended: each tool is existence-checked only right before its
own invocation. A missing qmake fails the run start with an error naming
it and no process; a present qmake is started; a missing make tool is
reported (naming it) only when Building is about to begin; and the
windeployqt invocation for Deploying is started with no existence check on
the deploy tool at all (only the produced executable is checked). -/
theorem C5_theorem (env : Env) (basePATH pf qb mb op : Str)
    (es : List Entry) (rel cl : Bool) (st : CompilerState) (fuel : Nat) :
    (env.pathExists (joinPath qb "qmake.exe".data) = false →
      (compile_qt_project env basePATH pf qb mb op es rel cl).events
          = [Event.error ("qmake not found: ".data
              ++ joinPath qb "qmake.exe".data)]
        ∧ (compile_qt_project env basePATH pf qb mb op es rel cl).started
          = none)
    ∧ (env.pathExists (joinPath qb "qmake.exe".data) = true →
      (compile_qt_project env basePATH pf qb mb op es rel cl).started
        = some { program := joinPath qb "qmake.exe".data
                 args := [pf, "CONFIG+=".data ++ configDirOf rel] })
    ∧ (st.make_started = false →
      env.pathExists (joinPath st.mingw_bin "mingw32-make.exe".data) = false →
      process_finished env (fuel + 1) st 0 true
        = { events := [Event.error ("Make tool not found: ".data
              ++ joinPath st.mingw_bin "mingw32-make.exe".data)]
            started := none
            state := { st with make_started := true } })
    ∧ (st.make_started = true → st.deploy_started = false →
      env.pathExists (joinPath (joinPath st.output_path
        (configDirOf st.is_release))
        (get_exe_name_from_pro env st.project_file)) = true →
      (process_finished env (fuel + 1) st 0 true).started
        = some { program := joinPath st.qt_bin "windeployqt.exe".data
                 args := [joinPath (joinPath st.output_path
                   (configDirOf st.is_release))
                   (get_exe_name_from_pro env st.project_file)] }) := by
  refine ⟨?_, ?_, ?_, ?_⟩
  · intro hq
    simp [compile_qt_project, hq]
  · intro hq
    simp [compile_qt_project, hq]
  · intro h1 h2
    exact step_make_missing env st fuel h1 h2
  · intro h1 h2 h3
    rw [step_deploy env st fuel h1 h2 h3]

/-- C5 witness: the amended statement applied at concrete worlds and
states, with every hypothesis discharged. -/
theorem C5_witness :
    ((compile_qt_project envNone "P".data "C:/p/app.pro".data "Q/bin".data
        "M/bin".data "O".data [] true false).events
          = [Event.error ("qmake not found: ".data
              ++ joinPath "Q/bin".data "qmake.exe".data)]
      ∧ (compile_qt_project envNone "P".data "C:/p/app.pro".data "Q/bin".data
        "M/bin".data "O".data [] true false).started = none)
    ∧ (compile_qt_project envAll "P".data "C:/p/app.pro".data "Q/bin".data
        "M/bin".data "O".data [] true false).started
      = some { program := joinPath "Q/bin".data "qmake.exe".data
               args := ["C:/p/app.pro".data,
                 "CONFIG+=".data ++ configDirOf true] }
    ∧ process_finished envNoMake (1 + 1) stConf 0 true
      = { events := [Event.error ("Make tool not found: ".data
            ++ joinPath "M/bin".data "mingw32-make.exe".data)]
          started := none
          state := { stConf with make_started := true } }
    ∧ (process_finished envAll (1 + 1) stBuild 0 true).started
      = some { program := joinPath "Q/bin".data "windeployqt.exe".data
               args := [joinPath (joinPath "O".data (configDirOf true))
                 (get_exe_name_from_pro envAll "C:/p/app.pro".data)] } :=
  ⟨(C5_theorem envNone "P".data "C:/p/app.pro".data "Q/bin".data
      "M/bin".data "O".data [] true false stConf 1).1 (by decide),
   (C5_theorem envAll "P".data "C:/p/app.pro".data "Q/bin".data
      "M/bin".data "O".data [] true false stConf 1).2.1 (by decide),
   (C5_theorem envNoMake "P".data "C:/p/app.pro".data "Q/bin".data
      "M/bin".data "O".data [] true false stConf 1).2.2.1 (by decide)
      (by decide),
   (C5_theorem envAll "P".data "C:/p/app.pro".data "Q/bin".data
      "M/bin".data "O".data [] true false stBuild 1).2.2.2 (by decide)
      (by decide) (by decide)⟩

/-- C6 counterexample: the claim says the two bin directories are
prepended to the search-path variable; the code appends them. With
inherited PATH "P" and bin directories "Q" and "M" the process environment
carries "P;Q;M", not the "Q;M;P" that prepending would produce. -/
theorem C6_counterexample :
    (compile_qt_project envAll "P".data "C:/p/app.pro".data "Q".data
        "M".data "O".data [] true false).procPATH = "P;Q;M".data
    ∧ prependedPATH "P".data "Q".data "M".data = "Q;M;P".data
    ∧ (compile_qt_project envAll "P".data "C:/p/app.pro".data "Q".data
        "M".data "O".data [] true false).procPATH
      ≠ prependedPATH "P".data "Q".data "M".data := by
  decide

/-- C6 as amended: the configure tool is invoked with exactly
`[projectFilePath, "CONFIG+=release"]` when the release flag is set and
`[projectFilePath, "CONFIG+=debug"]` otherwise, the working directory is
the output directory, and the two bin directories are appended (not
prepended) to the inherited search-path variable. -/
theorem C6_theorem (env : Env) (basePATH pf qb mb op : Str)
    (es : List Entry) (rel cl : Bool)
    (hq : env.pathExists (joinPath qb "qmake.exe".data) = true) :
    (compile_qt_project env basePATH pf qb mb op es rel cl).started
      = some { program := joinPath qb "qmake.exe".data
               args := [pf, "CONFIG+=".data
                 ++ (if rel then "release".data else "debug".data)] }
    ∧ (compile_qt_project env basePATH pf qb mb op es rel cl).workingDir = op
    ∧ (compile_qt_project env basePATH pf qb mb op es rel cl).procPATH
      = basePATH ++ ";".data ++ qb ++ ";".data ++ mb := by
  refine ⟨?_, ?_, ?_⟩ <;> simp [compile_qt_project, hq, configDirOf]

/-- C6 witness: the amended statement applied at a concrete input. -/
theorem C6_witness :
    (compile_qt_project envAll "P".data "C:/p/app.pro".data "Q".data
        "M".data "O".data [] true false).started
      = some { program := joinPath "Q".data "qmake.exe".data
               args := ["C:/p/app.pro".data, "CONFIG+=".data
                 ++ (if true then "release".data else "debug".data)] }
    ∧ (compile_qt_project envAll "P".data "C:/p/app.pro".data "Q".data
        "M".data "O".data [] true false).workingDir = "O".data
    ∧ (compile_qt_project envAll "P".data "C:/p/app.pro".data "Q".data
        "M".data "O".data [] true false).procPATH
      = "P".data ++ ";".data ++ "Q".data ++ ";".data ++ "M".data :=
  C6_theorem envAll "P".data "C:/p/app.pro".data "Q".data "M".data "O".data
    [] true false (by decide)

/-- C7 counterexample: the claim says the copy destination is the output
directory joined with the destination path after stripping leading path
separators; the code strips only forward slashes, and its
`os.path.join` then treats a still-backslash-rooted destination as
absolute-on-drive, discarding the output directory entirely. For
destination "\bar.txt" under output root "X" the code copies to
"\bar.txt" — outside the output directory — while the claim's reading
yields "X/bar.txt". -/
theorem C7_counterexample :
    copyEntries envAll "X".data
        [{ source := "s".data, destination := "\\bar.txt".data,
           type := "Generic".data }]
      = ([Event.output "Copied s -> \\bar.txt".data], true)
    ∧ destFor "X".data "\\bar.txt".data = "\\bar.txt".data
    ∧ destForSpec "X".data "\\bar.txt".data = "X/bar.txt".data
    ∧ destFor "X".data "\\bar.txt".data ≠ destForSpec "X".data "\\bar.txt".data := by
  decide

/-- C7 as amended: the destination is `os.path.join` of the output
directory with the destination path after stripping leading forward
slashes only; a leading backslash survives the strip and then roots the
join, so a backslash-rooted destination replaces the output directory
entirely and the entry is copied outside it (first conjunct); an entry
with an empty source or destination is skipped with a warning on the
output channel and the loop continues; and a copy failure is fatal: the
loop stops, the remaining entries are not processed, and the error names
the source/destination pair and the reason. -/
theorem C7_theorem (env : Env) (od : Str) (e : Entry) (rest : List Entry)
    (m : Str) :
    (∀ dr : Str, destFor od ('\\' :: dr) = '\\' :: dr)
    ∧ ((e.source = [] ∨ e.destination = []) →
      copyEntries env od (e :: rest)
        = (Event.output ("Invalid entry, skipping: ".data ++ e.source
            ++ " ".data ++ e.destination) :: (copyEntries env od rest).1,
           (copyEntries env od rest).2))
    ∧ (e.source ≠ [] → e.destination ≠ [] →
      env.isFile e.source = true →
      env.copyFails e.source (destFor od e.destination) = some m →
      copyEntries env od (e :: rest)
        = ([Event.error ("Failed to copy ".data ++ e.source ++ " -> ".data
            ++ destFor od e.destination ++ ": ".data ++ m)], false)) := by
  refine ⟨?_, ?_, ?_⟩
  · intro dr
    have hstrip : lstripSlash ('\\' :: dr) = '\\' :: dr := by
      simp [lstripSlash, isSlash, List.dropWhile]
    have hroot : startsWithSep ('\\' :: dr) = true := by
      simp [startsWithSep, isSep]
    simp [destFor, hstrip, ntJoin, hroot]
  · intro h
    simp [copyEntries, h]
  · intro hs hd hf hc
    simp [copyEntries, hs, hd, hf, hc]

/-- C7 witness: the amended statement applied at concrete entries set in a
world whose copies fail, with every hypothesis discharged. -/
theorem C7_witness :
    destFor "X".data ('\\' :: "x".data) = '\\' :: "x".data
    ∧ copyEntries envAll "X".data
        ({ source := [], destination := "d".data, type := [] }
          :: [{ source := "s".data, destination := "d".data, type := [] }])
      = (Event.output ("Invalid entry, skipping: ".data ++ []
          ++ " ".data ++ "d".data)
          :: (copyEntries envAll "X".data
            [{ source := "s".data, destination := "d".data, type := [] }]).1,
         (copyEntries envAll "X".data
            [{ source := "s".data, destination := "d".data, type := [] }]).2)
    ∧ copyEntries envCopyFail "X".data
        ({ source := "s".data, destination := "d".data, type := [] }
          :: [{ source := "t".data, destination := "u".data, type := [] }])
      = ([Event.error ("Failed to copy ".data ++ "s".data ++ " -> ".data
          ++ destFor "X".data "d".data ++ ": ".data ++ "disk full".data)],
         false) :=
  ⟨(C7_theorem envAll "X".data
      { source := [], destination := "d".data, type := [] }
      [{ source := "s".data, destination := "d".data, type := [] }]
      "disk full".data).1 "x".data,
   (C7_theorem envAll "X".data
      { source := [], destination := "d".data, type := [] }
      [{ source := "s".data, destination := "d".data, type := [] }]
      "disk full".data).2.1 (by decide),
   (C7_theorem envCopyFail "X".data
      { source := "s".data, destination := "d".data, type := [] }
      [{ source := "t".data, destination := "u".data, type := [] }]
      "disk full".data).2.2 (by decide) (by decide) (by decide) (by decide)⟩

/-- A line that matches the target scan (stripped-lowered text starts with
"target", and the line contains a "="), overwrites any accumulated name
with the trimmed text between the first and the second "=". -/
theorem targetScanStep_match (l a b : Str) (t : List Str)
    (h1 : startsWithC (lowerS (trimC l)) "target".data = true)
    (h2 : splitC '=' l = a :: b :: t) :
    ∀ acc, targetScanStep acc l = trimC b := by
  intro acc
  simp [targetScanStep, h1, h2]

/-- A line that does not match the target scan leaves the accumulated name
unchanged. -/
theorem targetScanStep_neutral (l : Str)
    (h : startsWithC (lowerS (trimC l)) "target".data = false
      ∨ (splitC '=' l).length ≤ 1) :
    ∀ acc, targetScanStep acc l = acc := by
  intro acc
  rcases h with h | h
  · simp [targetScanStep, h]
  · simp only [targetScanStep]
    split
    · rcases hs : splitC '=' l with _ | ⟨a, _ | ⟨b, t⟩⟩
      · rfl
      · rfl
      · rw [hs] at h
        simp at h
    · rfl

/-- A file none of whose lines match the target scan leaves the default
name in place. -/
theorem foldl_targetScanStep_neutral (lines : List Str)
    (h : ∀ l ∈ lines, startsWithC (lowerS (trimC l)) "target".data = false
      ∨ (splitC '=' l).length ≤ 1) :
    ∀ acc, lines.foldl targetScanStep acc = acc := by
  induction lines with
  | nil =>
    intro acc
    rfl
  | cons l ls ih =>
    intro acc
    rw [List.foldl_cons, targetScanStep_neutral l (h l (by simp))]
    exact ih (fun l2 hl2 => h l2 (by simp [hl2])) acc

/-- A world whose project file has no target directive at all. -/
def envNoTarget : Env :=
  { envAll with
    proLines := fun _ => ["SOURCES = a.cpp".data, "QT += core".data] }

/-- A world whose project file carries the directive in mixed case with
surrounding whitespace. -/
def envLower : Env :=
  { envAll with proLines := fun _ => ["  tArGeT=   foo  ".data] }

/-- A world whose project file has a TARGET line followed by a TARGET_EXT
line. -/
def envTwoTargets : Env :=
  { envAll with
    proLines := fun _ => ["TARGET = foo".data, "TARGET_EXT = ext".data] }

/-- A world whose project file has a target line with two "=" signs. -/
def envMultiEq : Env :=
  { envAll with proLines := fun _ => ["TARGET = x = y".data] }

/-- C4: executable-name resolution scans line by line, case-insensitively,
for a line starting with the target directive and takes the text after
"="; with no such line the project file's base name is used; the ".exe"
suffix is always appended; and the resolution is deterministic and
insensitive to the keyword's case and surrounding whitespace: a file whose
single line is `TARGET = foo` (in any of the probed spellings) always
resolves to "foo.exe". -/
theorem C4_theorem :
    (∀ (env : Env) (pf : Str),
      get_exe_name_from_pro env pf = exeStem env pf ++ ".exe".data)
    ∧ (∀ (env : Env) (pf : Str),
      (∀ l ∈ env.proLines pf,
        startsWithC (lowerS (trimC l)) "target".data = false
          ∨ (splitC '=' l).length ≤ 1) →
      get_exe_name_from_pro env pf
        = splitextRoot (basenameC pf) ++ ".exe".data)
    ∧ (∀ (env : Env) (pf : Str), env.proLines pf = ["TARGET = foo".data] →
      get_exe_name_from_pro env pf = "foo".data ++ ".exe".data)
    ∧ (∀ (env : Env) (pf : Str),
      env.proLines pf = ["  tArGeT=   foo  ".data] →
      get_exe_name_from_pro env pf = "foo".data ++ ".exe".data) := by
  refine ⟨?_, ?_, ?_, ?_⟩
  · intro env pf
    rfl
  · intro env pf h
    simp only [get_exe_name_from_pro, exeStem,
      foldl_targetScanStep_neutral (env.proLines pf) h]
  · intro env pf h
    simp only [get_exe_name_from_pro, exeStem, h, List.foldl_cons,
      List.foldl_nil,
      targetScanStep_match "TARGET = foo".data "TARGET ".data " foo".data []
        (by decide) (by decide)]
    decide
  · intro env pf h
    simp only [get_exe_name_from_pro, exeStem, h, List.foldl_cons,
      List.foldl_nil,
      targetScanStep_match "  tArGeT=   foo  ".data "  tArGeT".data
        "   foo  ".data [] (by decide) (by decide)]
    decide

/-- C4 witness: the four parts applied at concrete worlds, hypotheses
discharged. -/
theorem C4_witness :
    get_exe_name_from_pro envAll "C:/p/app.pro".data
      = exeStem envAll "C:/p/app.pro".data ++ ".exe".data
    ∧ get_exe_name_from_pro envNoTarget "C:/p/app.pro".data
      = splitextRoot (basenameC "C:/p/app.pro".data) ++ ".exe".data
    ∧ get_exe_name_from_pro envAll "C:/p/app.pro".data
      = "foo".data ++ ".exe".data
    ∧ get_exe_name_from_pro envLower "C:/p/app.pro".data
      = "foo".data ++ ".exe".data :=
  ⟨C4_theorem.1 envAll "C:/p/app.pro".data,
   C4_theorem.2.1 envNoTarget "C:/p/app.pro".data (by decide),
   C4_theorem.2.2.1 envAll "C:/p/app.pro".data (by decide),
   C4_theorem.2.2.2 envLower "C:/p/app.pro".data (by decide)⟩

/-- C10: when several lines of the project file match the target scan the
last one wins (the loop overwrites the name on every match); a line whose
stripped-lowered text merely begins with "target" — such as a TARGET_EXT
assignment — also matches; and on a line with more than one "=" only the
text between the first and the second "=" is taken. -/
theorem C10_theorem :
    (∀ (env : Env) (pf : Str) (lines : List Str) (l a b : Str)
        (t : List Str),
      env.proLines pf = lines ++ [l] →
      startsWithC (lowerS (trimC l)) "target".data = true →
      splitC '=' l = a :: b :: t →
      get_exe_name_from_pro env pf = trimC b ++ ".exe".data)
    ∧ (∀ (env : Env) (pf : Str),
      env.proLines pf = ["TARGET = foo".data, "TARGET_EXT = ext".data] →
      get_exe_name_from_pro env pf = "ext".data ++ ".exe".data)
    ∧ (∀ (env : Env) (pf : Str),
      env.proLines pf = ["TARGET = x = y".data] →
      get_exe_name_from_pro env pf = "x".data ++ ".exe".data) := by
  refine ⟨?_, ?_, ?_⟩
  · intro env pf lines l a b t hl h1 h2
    simp only [get_exe_name_from_pro, exeStem, hl, List.foldl_append,
      List.foldl_cons, List.foldl_nil, targetScanStep_match l a b t h1 h2]
  · intro env pf h
    simp only [get_exe_name_from_pro, exeStem, h, List.foldl_cons,
      List.foldl_nil,
      targetScanStep_match "TARGET = foo".data "TARGET ".data " foo".data []
        (by decide) (by decide),
      targetScanStep_match "TARGET_EXT = ext".data "TARGET_EXT ".data
        " ext".data [] (by decide) (by decide)]
    decide
  · intro env pf h
    simp only [get_exe_name_from_pro, exeStem, h, List.foldl_cons,
      List.foldl_nil,
      targetScanStep_match "TARGET = x = y".data "TARGET ".data " x ".data
        [" y".data] (by decide) (by decide)]
    decide

/-- C10 witness: the three parts applied at concrete worlds, hypotheses
discharged. -/
theorem C10_witness :
    get_exe_name_from_pro envTwoTargets "C:/p/app.pro".data
      = trimC " ext".data ++ ".exe".data
    ∧ get_exe_name_from_pro envTwoTargets "C:/p/app.pro".data
      = "ext".data ++ ".exe".data
    ∧ get_exe_name_from_pro envMultiEq "C:/p/app.pro".data
      = "x".data ++ ".exe".data :=
  ⟨C10_theorem.1 envTwoTargets "C:/p/app.pro".data ["TARGET = foo".data]
      "TARGET_EXT = ext".data "TARGET_EXT ".data " ext".data []
      (by decide) (by decide) (by decide),
   C10_theorem.2.1 envTwoTargets "C:/p/app.pro".data (by decide),
   C10_theorem.2.2 envMultiEq "C:/p/app.pro".data (by decide)⟩

/-- An all-output trace filters to nothing under the error classifier. -/
theorem all_output_filter_error (evs : List Event)
    (h : evs.all isOutputEvent = true) : evs.filter isErrorEvent = [] := by
  induction evs with
  | nil => rfl
  | cons e rest ih =>
    cases e <;> simp_all [isOutputEvent, isErrorEvent, List.filter_cons]

/-- An all-output trace filters to nothing under the finished
classifier. -/
theorem all_output_filter_finished (evs : List Event)
    (h : evs.all isOutputEvent = true) : evs.filter isFinishedEvent = [] := by
  induction evs with
  | nil => rfl
  | cons e rest ih =>
    cases e <;> simp_all [isOutputEvent, isFinishedEvent, List.filter_cons]

/-- The clean-up step has no error events. -/
theorem clean_filter_error (env : Env) (st : CompilerState) :
    (clean_build_files env st).filter isErrorEvent = [] :=
  all_output_filter_error _ (clean_all_output env st)

/-- The clean-up step has no finished events. -/
theorem clean_filter_finished (env : Env) (st : CompilerState) :
    (clean_build_files env st).filter isFinishedEvent = [] :=
  all_output_filter_finished _ (clean_all_output env st)

/-- A finished terminal state with the copy flag set and clean
disabled. -/
def stDone : CompilerState := { stDep with copy_sources_started := true }

/-- The same terminal state with clean requested. -/
def stDoneClean : CompilerState := { stDone with need_clean := true }

/-- A world with two globbed .cpp files, one of which cannot be
removed. -/
def envGlob : Env :=
  { envAll with
    globFiles := fun _ p =>
      if p = "*.cpp".data then ["a.cpp".data, "b.cpp".data] else []
    removeFails := fun f =>
      if f = "a.cpp".data then some "locked".data else none }

/-- C8: the clean-up runs only when requested — the terminal success step
emits exactly the finished signal and the packaging line when the clean
flag is off, and interposes the clean-up events after the finished signal
when it is on; every clean-up event is an output-channel line (per-file
failures are downgraded to warnings and never abort); and when the output
path exists the clean-up is exactly one warning per failing removal
followed by a concluding line reporting the count of files actually
removed. -/
theorem C8_theorem (env : Env) (st : CompilerState) (fuel : Nat)
    (h1 : st.make_started = true) (h2 : st.deploy_started = true)
    (h3 : st.copy_sources_started = true ∨ st.external_sources = [])
    (h4 : st.qml_dll_need_deploy_files.length ≤ st.qml_dll_deploy_count) :
    (st.need_clean = false →
      (process_finished env (fuel + 1) st 0 true).events
        = [Event.finished (joinPath st.output_path
            (configDirOf st.is_release)),
           Event.output packagingMsg])
    ∧ (st.need_clean = true →
      (process_finished env (fuel + 1) st 0 true).events
        = Event.finished (joinPath st.output_path (configDirOf st.is_release))
          :: clean_build_files env st ++ [Event.output packagingMsg])
    ∧ (clean_build_files env st).all isOutputEvent = true
    ∧ (env.pathExists st.output_path = true →
      clean_build_files env st
        = cleanWarnings env (cleanTargets env st)
          ++ [Event.output ("Cleaned ".data
              ++ natToChars (removedCount env (cleanTargets env st))
              ++ " build artifact files.\n".data)]) := by
  refine ⟨?_, ?_, clean_all_output env st, clean_build_files_eq env st⟩
  · intro hnc
    rw [step_finish env st fuel h1 h2 h3 h4]
    simp [hnc]
  · intro hnc
    rw [step_finish env st fuel h1 h2 h3 h4]
    simp [hnc]

/-- C8 witness: the terminal step evaluated with clean off and on, and
the clean-up characterization at a world with one failing removal. -/
theorem C8_witness :
    (process_finished envGlob (1 + 1) stDone 0 true).events
      = [Event.finished (joinPath "O".data (configDirOf true)),
         Event.output packagingMsg]
    ∧ (process_finished envGlob (1 + 1) stDoneClean 0 true).events
      = Event.finished (joinPath "O".data (configDirOf true))
        :: clean_build_files envGlob stDoneClean
        ++ [Event.output packagingMsg]
    ∧ (clean_build_files envGlob stDoneClean).all isOutputEvent = true
    ∧ clean_build_files envGlob stDoneClean
      = cleanWarnings envGlob (cleanTargets envGlob stDoneClean)
        ++ [Event.output ("Cleaned ".data
            ++ natToChars (removedCount envGlob
              (cleanTargets envGlob stDoneClean))
            ++ " build artifact files.\n".data)] :=
  ⟨(C8_theorem envGlob stDone 1 (by decide) (by decide)
      (Or.inl (by decide)) (by decide)).1 (by decide),
   (C8_theorem envGlob stDoneClean 1 (by decide) (by decide)
      (Or.inl (by decide)) (by decide)).2.1 (by decide),
   (C8_theorem envGlob stDoneClean 1 (by decide) (by decide)
      (Or.inl (by decide)) (by decide)).2.2.1,
   (C8_theorem envGlob stDoneClean 1 (by decide) (by decide)
      (Or.inl (by decide)) (by decide)).2.2.2 (by decide)⟩

/-- A world in which no source path is a file or a directory. -/
def envNoKind : Env :=
  { envAll with isFile := fun _ => false, isDir := fun _ => false }

/-- A manifest entry whose source exists as neither a file nor a
directory in `envNoKind`. -/
def eGhost : Entry :=
  { source := "g".data, destination := "h".data, type := "Generic".data }

/-- The deploy-finished state whose manifest holds only the ghost
entry. -/
def stGhost : CompilerState := { stDep with external_sources := [eGhost] }

/-- C9: a manifest entry with non-empty source and destination whose
source exists as neither a file nor a directory falls through both copy
branches: no event is emitted for it, no abort happens, and the loop
continues with the remaining entries; afterwards the copy step re-enters
the completion logic, so a run whose only entry is such a ghost still
reaches the finished signal. -/
theorem C9_theorem (env : Env) (od : Str) (e : Entry) (rest : List Entry)
    (st : CompilerState) (fuel : Nat)
    (hs : e.source ≠ []) (hd : e.destination ≠ [])
    (hf : env.isFile e.source = false) (hdd : env.isDir e.source = false) :
    copyEntries env od (e :: rest) = copyEntries env od rest
    ∧ (st.make_started = true → st.deploy_started = true →
      st.copy_sources_started = false →
      st.external_sources = [e] →
      st.qml_dll_need_deploy_files = [] →
      st.need_clean = false →
      (process_finished env (fuel + 2) st 0 true).events
        = [Event.output "Copying external sources...\n".data,
           Event.finished (joinPath st.output_path
             (configDirOf st.is_release)),
           Event.output packagingMsg]) := by
  have hskip : ∀ od2 : Str,
      copyEntries env od2 (e :: rest) = copyEntries env od2 rest := by
    intro od2
    simp [copyEntries, hs, hd, hf, hdd]
  have hone : ∀ od2 : Str, copyEntries env od2 [e] = ([], true) := by
    intro od2
    simp [copyEntries, hs, hd, hf, hdd]
  refine ⟨hskip od, ?_⟩
  intro h1 h2 h3 h4 h5 h6
  rw [step_copy_ok env st (fuel + 1) h1 h2 h3 (by simp [h4])
    (by rw [h4, hone])]
  rw [step_finish env { st with copy_sources_started := true } fuel h1 h2
    (Or.inl rfl) (by simp [h5])]
  simp [h4, hone, h6]

/-- C9 witness: the ghost-entry skip and the completed run applied at a
concrete world and state. -/
theorem C9_witness :
    copyEntries envNoKind "X".data (eGhost :: [])
      = copyEntries envNoKind "X".data []
    ∧ (process_finished envNoKind (0 + 2) stGhost 0 true).events
      = [Event.output "Copying external sources...\n".data,
         Event.finished (joinPath "O".data (configDirOf true)),
         Event.output packagingMsg] :=
  ⟨(C9_theorem envNoKind "X".data eGhost [] stGhost 0 (by decide)
      (by decide) (by decide) (by decide)).1,
   (C9_theorem envNoKind "X".data eGhost [] stGhost 0 (by decide)
      (by decide) (by decide) (by decide)).2 (by decide) (by decide)
      (by decide) (by decide) (by decide) (by decide)⟩

/-- C3: with every tool present and every process and copy succeeding, a
run over a manifest holding one plain and one QML-flagged entry starts, in
order, qmake (with the project file and the CONFIG argument), make,
windeployqt on the produced executable, and windeployqt on the flagged
destination; it emits exactly one finished signal whose directory is the
output root joined with "release"/"debug" per the release flag, and no
error; and a run with an empty manifest starts only the three tools,
emits the one finished signal and no error, and never sets the
copy-sources flag or the QML-deploy index. -/
theorem C3_theorem (env : Env) (basePATH pf qb mb op : Str) (e1 e2 : Entry)
    (rel cl : Bool)
    (hq1 : ¬ lowerS (trimC e1.type) = "qml".data)
    (hq2 : lowerS (trimC e2.type) = "qml".data)
    (hex : ∀ p, env.pathExists p = true)
    (hcopy : ∀ s d, env.copyFails s d = none) :
    ((runBuild env basePATH pf qb mb op [e1, e2] rel cl
        [(0, true), (0, true), (0, true), (0, true)]).procs
      = [{ program := joinPath qb "qmake.exe".data
           args := [pf, "CONFIG+=".data ++ configDirOf rel] },
         { program := joinPath mb "mingw32-make.exe".data, args := [] },
         { program := joinPath qb "windeployqt.exe".data
           args := [joinPath (joinPath op (configDirOf rel))
             (get_exe_name_from_pro env pf)] },
         { program := joinPath qb "windeployqt.exe".data
           args := [joinPath (joinPath op (configDirOf rel))
               (lstripSeps e2.destination),
             "--qmldir".data, joinPath (parentDir qb) "qml".data] }]
      ∧ (runBuild env basePATH pf qb mb op [e1, e2] rel cl
          [(0, true), (0, true), (0, true), (0, true)]).events.filter
            isFinishedEvent
        = [Event.finished (joinPath op (configDirOf rel))]
      ∧ (runBuild env basePATH pf qb mb op [e1, e2] rel cl
          [(0, true), (0, true), (0, true), (0, true)]).events.filter
            isErrorEvent = [])
    ∧ ((runBuild env basePATH pf qb mb op [] rel cl
        [(0, true), (0, true), (0, true)]).procs
      = [{ program := joinPath qb "qmake.exe".data
           args := [pf, "CONFIG+=".data ++ configDirOf rel] },
         { program := joinPath mb "mingw32-make.exe".data, args := [] },
         { program := joinPath qb "windeployqt.exe".data
           args := [joinPath (joinPath op (configDirOf rel))
             (get_exe_name_from_pro env pf)] }]
      ∧ (runBuild env basePATH pf qb mb op [] rel cl
          [(0, true), (0, true), (0, true)]).events.filter isFinishedEvent
        = [Event.finished (joinPath op (configDirOf rel))]
      ∧ (runBuild env basePATH pf qb mb op [] rel cl
          [(0, true), (0, true), (0, true)]).events.filter isErrorEvent = []
      ∧ (runBuild env basePATH pf qb mb op [] rel cl
          [(0, true), (0, true), (0, true)]).final.copy_sources_started
        = false
      ∧ (runBuild env basePATH pf qb mb op [] rel cl
          [(0, true), (0, true), (0, true)]).final.qml_dll_deploy_count
        = 0) := by
  constructor
  · simp only [runBuild, compile_qt_project, hex, eq_self_iff_true, if_true]
    simp only [drive]
    rw [step_make env _ 1 (by rfl) (hex _)]
    simp only [drive]
    rw [step_deploy env _ 1 (by rfl) (by rfl) (hex _)]
    simp only [drive]
    rw [step_copy_ok env _ 1 (by rfl) (by rfl) (by rfl) (by simp)
      (copyEntries_ok env _ _ hcopy)]
    rw [step_qml env _ 0 (by rfl) (by rfl) (Or.inl (by rfl))
      (by simp [hq1, hq2]) (hex _) (hex _)]
    simp only [drive]
    rw [step_finish env _ 1 (by rfl) (by rfl) (Or.inl (by rfl))
      (by simp [hq1, hq2])]
    simp only [drive, Option.toList]
    refine ⟨?_, ?_, ?_⟩
    · simp [hq1, hq2]
    · simp [List.filter_append, List.filter_cons, isFinishedEvent,
        isErrorEvent, copyEntries_filter_finished, clean_filter_finished,
        apply_ite (List.filter isFinishedEvent)]
    · simp [List.filter_append, List.filter_cons, isFinishedEvent,
        isErrorEvent, copyEntries_filter_error env _ _
          (copyEntries_ok env _ _ hcopy),
        clean_filter_error, apply_ite (List.filter isErrorEvent)]
  · simp only [runBuild, compile_qt_project, hex, eq_self_iff_true, if_true]
    simp only [drive]
    rw [step_make env _ 1 (by rfl) (hex _)]
    simp only [drive]
    rw [step_deploy env _ 1 (by rfl) (by rfl) (hex _)]
    simp only [drive]
    rw [step_finish env _ 1 (by rfl) (by rfl) (Or.inr (by rfl)) (by simp)]
    simp only [drive, Option.toList]
    refine ⟨?_, ?_, ?_, ?_, ?_⟩
    · simp
    · simp [List.filter_append, List.filter_cons, isFinishedEvent,
        clean_filter_finished, apply_ite (List.filter isFinishedEvent)]
    · simp [List.filter_append, List.filter_cons, isErrorEvent,
        clean_filter_error, apply_ite (List.filter isErrorEvent)]
    · trivial
    · trivial

/-- A plain manifest entry. -/
def ePlain : Entry :=
  { source := "s1".data, destination := "d1".data, type := "Generic".data }

/-- A QML-flagged manifest entry. -/
def eQml : Entry :=
  { source := "s2".data, destination := "d2".data, type := "QML".data }

/-- C3 witness: the two run scenarios applied at a concrete all-good
world and configuration, hypotheses discharged. -/
theorem C3_witness :
    ((runBuild envAll "P".data "C:/p/app.pro".data "Q/bin".data "M/bin".data
        "O".data [ePlain, eQml] true false
        [(0, true), (0, true), (0, true), (0, true)]).procs
      = [{ program := joinPath "Q/bin".data "qmake.exe".data
           args := ["C:/p/app.pro".data,
             "CONFIG+=".data ++ configDirOf true] },
         { program := joinPath "M/bin".data "mingw32-make.exe".data
           args := [] },
         { program := joinPath "Q/bin".data "windeployqt.exe".data
           args := [joinPath (joinPath "O".data (configDirOf true))
             (get_exe_name_from_pro envAll "C:/p/app.pro".data)] },
         { program := joinPath "Q/bin".data "windeployqt.exe".data
           args := [joinPath (joinPath "O".data (configDirOf true))
               (lstripSeps eQml.destination),
             "--qmldir".data, joinPath (parentDir "Q/bin".data) "qml".data] }]
      ∧ (runBuild envAll "P".data "C:/p/app.pro".data "Q/bin".data
          "M/bin".data "O".data [ePlain, eQml] true false
          [(0, true), (0, true), (0, true), (0, true)]).events.filter
            isFinishedEvent
        = [Event.finished (joinPath "O".data (configDirOf true))]
      ∧ (runBuild envAll "P".data "C:/p/app.pro".data "Q/bin".data
          "M/bin".data "O".data [ePlain, eQml] true false
          [(0, true), (0, true), (0, true), (0, true)]).events.filter
            isErrorEvent = [])
    ∧ ((runBuild envAll "P".data "C:/p/app.pro".data "Q/bin".data
        "M/bin".data "O".data [] true false
        [(0, true), (0, true), (0, true)]).procs
      = [{ program := joinPath "Q/bin".data "qmake.exe".data
           args := ["C:/p/app.pro".data,
             "CONFIG+=".data ++ configDirOf true] },
         { program := joinPath "M/bin".data "mingw32-make.exe".data
           args := [] },
         { program := joinPath "Q/bin".data "windeployqt.exe".data
           args := [joinPath (joinPath "O".data (configDirOf true))
             (get_exe_name_from_pro envAll "C:/p/app.pro".data)] }]
      ∧ (runBuild envAll "P".data "C:/p/app.pro".data "Q/bin".data
          "M/bin".data "O".data [] true false
          [(0, true), (0, true), (0, true)]).events.filter isFinishedEvent
        = [Event.finished (joinPath "O".data (configDirOf true))]
      ∧ (runBuild envAll "P".data "C:/p/app.pro".data "Q/bin".data
          "M/bin".data "O".data [] true false
          [(0, true), (0, true), (0, true)]).events.filter isErrorEvent = []
      ∧ (runBuild envAll "P".data "C:/p/app.pro".data "Q/bin".data
          "M/bin".data "O".data [] true false
          [(0, true), (0, true), (0, true)]).final.copy_sources_started
        = false
      ∧ (runBuild envAll "P".data "C:/p/app.pro".data "Q/bin".data
          "M/bin".data "O".data [] true false
          [(0, true), (0, true), (0, true)]).final.qml_dll_deploy_count
        = 0) :=
  C3_theorem envAll "P".data "C:/p/app.pro".data "Q/bin".data "M/bin".data
    "O".data ePlain eQml true false (by decide) (by decide)
    (fun _ => rfl) (fun _ _ => rfl)

end QtPackageTool
